import Mathlib

/-!
# Java language registration for Gazelle (`java/gazelle/lang.go`)

A shallow embedding of the registration surface of the Java language plugin:
the rule-kind table (`Kinds`), the test classifier (`isTestRule`), the load
table (`javaLoads`, `Loads`) and the lifecycle hook (`DoneGeneratingRules`).

Go maps written as literals become association lists in the order of the
literal (the keys of a Go map literal are pairwise distinct), and indexing a
`map[string]bool` gives `false` for an absent key.
-/

namespace Gazelle

/-! ## Data model -/

/-- A Go `map[string]bool` literal, as the list of its key/value pairs. -/
abbrev AttrSet := List (String × Bool)

/-- Go map indexing `m[k]` on a `map[string]bool`: the stored value, and the
zero value `false` when the key is absent. -/
def AttrSet.get (m : AttrSet) (k : String) : Bool :=
  (m.lookup k).getD false

/-- The fields of `rule.KindInfo` that `lang.go` sets. -/
structure KindInfo where
  NonEmptyAttrs : AttrSet
  MergeableAttrs : AttrSet
  ResolveAttrs : AttrSet
  deriving DecidableEq, Repr

/-- The type `rule.LoadInfo`: a `.bzl` file and the symbols loaded from it. -/
structure LoadInfo where
  Name : String
  Symbols : List String
  deriving DecidableEq, Repr

/-! ## Rule-kind table -/

/-- The variable `kindWithRuntimeDeps`. -/
def kindWithRuntimeDeps : KindInfo where
  NonEmptyAttrs := [("deps", true), ("srcs", true)]
  MergeableAttrs := [("srcs", true)]
  ResolveAttrs := [("deps", true), ("runtime_deps", true)]

/-- The variable `kindWithoutRuntimeDeps`. -/
def kindWithoutRuntimeDeps : KindInfo where
  NonEmptyAttrs := [("deps", true), ("srcs", true)]
  MergeableAttrs := [("srcs", true)]
  ResolveAttrs := [("deps", true)]

/-- The variable `javaLibraryKind`. -/
def javaLibraryKind : KindInfo where
  NonEmptyAttrs := [("deps", true), ("exports", true), ("srcs", true)]
  MergeableAttrs := [("srcs", true)]
  ResolveAttrs := [("deps", true), ("exports", true), ("runtime_deps", true)]

/-! ## Test classifier -/

/-- The array literal `test_kinds` local to `isTestRule`. -/
def test_kinds : List String :=
  [ "java_junit5_test",
    "java_test",
    "java_test_suite",
    "unit_package",
    "unit_test",
    "int_test",
    "test_test",
    "test_package" ]

/-- The loop of `isTestRule`, entered at index `i` with the current value of
`test_rule_found`:
`for ; i < len(test_kinds); i++ { if test_kinds[i] == string { found = true; break } }`.

The right operand of the comparison in the source is the identifier `string`,
Go's predeclared type name, and not the parameter `kind`. Go gives such a
comparison no value, so its outcome on each element is the parameter
`eqString` of the model. -/
def isTestRuleLoop (eqString : String → Bool) (i : Nat) (test_rule_found : Bool) : Bool :=
  if h : i < test_kinds.length then
    if eqString (test_kinds.get ⟨i, h⟩) then
      true
    else
      isTestRuleLoop eqString (i + 1) test_rule_found
  else
    test_rule_found
termination_by test_kinds.length - i

set_option linter.unusedVariables false in
/-- The function `isTestRule(kind string) bool`. The body never reads `kind`:
the loop compares each element with `string` (see `isTestRuleLoop`). -/
def isTestRule (eqString : String → Bool) (kind : String) : Bool :=
  isTestRuleLoop eqString 0 false

/-! ## Load table -/

/-- The variable `javaLoads`, in the order of the literal. (In the source the
comma that Go requires after the `Symbols` field of the last two entries, and
after the last entry, is missing; the entries are read as they are written.) -/
def javaLoads : List LoadInfo :=
  [ { Name := "@io_grpc_grpc_java//:java_grpc_library.bzl",
      Symbols := ["java_grpc_library"] },
    { Name := "@rules_java//java:defs.bzl",
      Symbols := ["java_binary", "java_library", "java_proto_library", "java_test"] },
    { Name := "@contrib_rules_jvm//java:defs.bzl",
      Symbols := ["java_junit5_test", "java_test_suite"] },
    { Name := "@10gen_mms//server/src/unit:rules.bzl",
      Symbols := ["unit_test", "unit_package", "library_package"] },
    { Name := "@10gen_mms//server/src/test:rules.bzl",
      Symbols := ["int_test", "test_test", "test_package"] } ]

/-! ## Language state and its methods -/

/-- Modelled from the spec: the state of the server manager behind the parser
collaborator (package `servermanager`, not among the sources): whether its
long-lived resources are held, and how many releases it has performed. -/
structure ServerManager where
  held : Bool
  releases : Nat
  deriving DecidableEq, Repr

/-- Modelled from the spec: `ServerManager.Shutdown()` (not among the sources)
releases the parser collaborator's long-lived resources; it is idempotent, a
further call produces no error and performs no duplicate release. -/
def ServerManager.Shutdown (m : ServerManager) : Except String ServerManager :=
  if m.held then
    .ok { held := false, releases := m.releases + 1 }
  else
    .ok m

/-- Modelled from the spec: `javaparser.Runner` (not among the sources), the
parser collaborator, reduced to the server manager it owns. -/
structure Runner where
  mgr : ServerManager
  deriving DecidableEq, Repr

/-- Modelled from the spec: `Runner.ServerManager()` (not among the sources)
hands out the runner's server manager. -/
def Runner.ServerManager (r : Runner) : ServerManager :=
  r.mgr

/-- The struct `javaLang`. `Ext` is the type of the values of the external
packages (`config`, `resolve`, `zerolog`, `maven`, `java`), whose structure
this file never inspects. The pointer `parser` is `none` when nil, and the map
`javaPackageCache` is the list of its entries. -/
structure javaLang (Ext : Type) where
  Configurer : Ext
  Resolver : Ext
  parser : Option Runner
  logger : Ext
  javaLogLevel : String
  mavenResolver : Ext
  javaPackageCache : List (String × Ext)

set_option linter.unusedVariables false in
/-- The method `Kinds()`: the map literal it returns, as the list of its
entries in the order of the literal. -/
def Kinds {Ext : Type} (l : javaLang Ext) : List (String × KindInfo) :=
  [ ("java_binary", kindWithRuntimeDeps),
    ("java_junit5_test", kindWithRuntimeDeps),
    ("java_library", javaLibraryKind),
    ("java_test", kindWithRuntimeDeps),
    ("java_test_suite", kindWithRuntimeDeps),
    ("java_proto_library", kindWithoutRuntimeDeps),
    ("java_grpc_library", kindWithoutRuntimeDeps),
    ("unit_package", kindWithRuntimeDeps),
    ("unit_test", kindWithRuntimeDeps),
    ("int_test", kindWithRuntimeDeps),
    ("test_test", kindWithRuntimeDeps),
    ("library_package", javaLibraryKind),
    ("test_package", kindWithRuntimeDeps) ]

set_option linter.unusedVariables false in
/-- The method `Loads()`: it returns `javaLoads`. -/
def Loads {Ext : Type} (l : javaLang Ext) : List LoadInfo :=
  javaLoads

/-- A call `l.Kinds()` as a step on the language state: the returned table and
the state after the call. The receiver is passed by value and the body is a
single `return`, so the state after the call is the state before it. -/
def callKinds {Ext : Type} (l : javaLang Ext) : List (String × KindInfo) × javaLang Ext :=
  (Kinds l, l)

/-- A call `l.Loads()` as a step on the language state, as `callKinds`. -/
def callLoads {Ext : Type} (l : javaLang Ext) : List LoadInfo × javaLang Ext :=
  (Loads l, l)

/-- The method `DoneGeneratingRules()`: `l.parser.ServerManager().Shutdown()`,
as a step on the language state. The manager is reached through the pointer
`parser`, so the shutdown is visible in the state after the call; a nil
`parser` makes the method call panic. -/
def DoneGeneratingRules {Ext : Type} (l : javaLang Ext) : Except String (javaLang Ext) :=
  match l.parser with
  | none => .error "invalid memory address or nil pointer dereference"
  | some r =>
    match r.ServerManager.Shutdown with
    | .error e => .error e
    | .ok m => .ok { l with parser := some { r with mgr := m } }

/-- The function `NewLanguage()`. The values it takes from other packages are
parameters: `logger`, the logger built with `zerolog` at the level of
`logconfig.LogLevel()`; `javaLevel`, the second result of
`logconfig.LogLevel()`; `NewConfigurer` and `NewResolver` (not among the
sources), which are handed the language and give back the collaborator stored
in it; and `nilExt`, the zero value of a field the struct literal leaves out.
The literal sets `logger`, `javaLogLevel` and an empty `javaPackageCache`, so
`parser` is nil in the language returned. -/
def NewLanguage {Ext : Type} (nilExt logger : Ext) (javaLevel : String)
    (NewConfigurer NewResolver : javaLang Ext → Ext) : javaLang Ext :=
  let l : javaLang Ext :=
    { Configurer := nilExt
      Resolver := nilExt
      parser := none
      logger := logger
      javaLogLevel := javaLevel
      mavenResolver := nilExt
      javaPackageCache := [] }
  let l := { l with Configurer := NewConfigurer l }
  let l := { l with Resolver := NewResolver l }
  l

/-- Go's `<=` on strings, lexicographic by bytes; on UTF-8 text this is the
lexicographic order by code points. -/
def strLe (a b : String) : Bool :=
  decide (a.toList.map Char.toNat ≤ b.toList.map Char.toNat)

/-- The number of resource releases the parser collaborator's server manager
has performed so far (zero when there is no parser). -/
def releasesOf {Ext : Type} (l : javaLang Ext) : Nat :=
  match l.parser with
  | none => 0
  | some r => r.ServerManager.releases

/-- The list is sorted lexicographically (ascending in `strLe`). -/
def sortedLex (xs : List String) : Prop :=
  xs.Pairwise (fun a b => strLe a b = true)

instance (xs : List String) : Decidable (sortedLex xs) := by
  unfold sortedLex
  infer_instance

/-- The load files that come with the Java rules themselves, as opposed to the
two `@10gen_mms` rule files. -/
def stockLoadNames : List String :=
  [ "@io_grpc_grpc_java//:java_grpc_library.bzl",
    "@rules_java//java:defs.bzl",
    "@contrib_rules_jvm//java:defs.bzl" ]

/-- A language state with a running parser collaborator, used to instantiate
the statements below. -/
def sampleLang : javaLang Unit where
  Configurer := ()
  Resolver := ()
  parser := some { mgr := { held := true, releases := 0 } }
  logger := ()
  javaLogLevel := "info"
  mavenResolver := ()
  javaPackageCache := [("src/main/java/com/example", ())]

/-! ## Helper lemmas -/

theorem isTestRuleLoop_eq_any (eqString : String → Bool) (n i : Nat)
    (hn : test_kinds.length - i = n) :
    isTestRuleLoop eqString i false = (test_kinds.drop i).any eqString := by
  induction n generalizing i with
  | zero =>
    have hi : test_kinds.length ≤ i := by omega
    rw [isTestRuleLoop, dif_neg (by omega), List.drop_of_length_le hi]
    rfl
  | succ n ih =>
    have hi : i < test_kinds.length := by omega
    rw [isTestRuleLoop, dif_pos hi, List.drop_eq_getElem_cons hi, List.any_cons,
      ih (i + 1) (by omega)]
    cases h : eqString (test_kinds.get ⟨i, hi⟩) <;> simp_all

theorem isTestRule_eq_any (eqString : String → Bool) (kind : String) :
    isTestRule eqString kind = test_kinds.any eqString := by
  unfold isTestRule
  rw [isTestRuleLoop_eq_any eqString _ 0 rfl]
  rfl

theorem lookup_cons_ite {β : Type} (k : String) (v : β) (m : List (String × β)) (a : String) :
    List.lookup a ((k, v) :: m) = if a = k then some v else List.lookup a m := by
  by_cases h : a = k
  · subst h; simp [List.lookup]
  · have hb : (a == k) = false := by simpa using h
    simp [List.lookup, hb, h]

theorem AttrSet.get_cons (k : String) (v : Bool) (m : AttrSet) (a : String) :
    AttrSet.get ((k, v) :: m) a = if a = k then v else AttrSet.get m a := by
  unfold AttrSet.get
  rw [lookup_cons_ite]
  split <;> rfl

theorem AttrSet.get_nil (a : String) : AttrSet.get [] a = false := rfl

theorem get_kindWithoutRuntimeDeps (a : String) :
    kindWithoutRuntimeDeps.ResolveAttrs.get a = true ↔ a = "deps" := by
  simp only [kindWithoutRuntimeDeps, AttrSet.get_cons, AttrSet.get_nil]
  by_cases h1 : a = "deps" <;> simp [h1]

theorem get_kindWithRuntimeDeps (a : String) :
    kindWithRuntimeDeps.ResolveAttrs.get a = true ↔ a = "deps" ∨ a = "runtime_deps" := by
  simp only [kindWithRuntimeDeps, AttrSet.get_cons, AttrSet.get_nil]
  by_cases h1 : a = "deps" <;> by_cases h2 : a = "runtime_deps" <;> simp [h1, h2]

theorem get_javaLibraryKind (a : String) :
    javaLibraryKind.ResolveAttrs.get a = true ↔
      a = "deps" ∨ a = "runtime_deps" ∨ a = "exports" := by
  simp only [javaLibraryKind, AttrSet.get_cons, AttrSet.get_nil]
  by_cases h1 : a = "deps" <;> by_cases h2 : a = "runtime_deps" <;>
    by_cases h3 : a = "exports" <;> simp [h1, h2, h3]

theorem lookup_mem {β : Type} (m : List (String × β)) (a : String) (v : β)
    (h : List.lookup a m = some v) : (a, v) ∈ m := by
  induction m with
  | nil => simp [List.lookup] at h
  | cons p m ih =>
    obtain ⟨k, w⟩ := p
    rw [lookup_cons_ite] at h
    by_cases hk : a = k
    · rw [if_pos hk] at h
      cases h
      subst hk
      exact List.mem_cons_self _ _
    · rw [if_neg hk] at h
      exact List.mem_cons_of_mem _ (ih h)

/-- Every value stored in the table of `Kinds()` is one of the three shapes. -/
theorem Kinds_shape {Ext : Type} (l : javaLang Ext) (kind : String) (info : KindInfo)
    (h : (Kinds l).lookup kind = some info) :
    info = kindWithRuntimeDeps ∨ info = kindWithoutRuntimeDeps ∨ info = javaLibraryKind := by
  have hall : ∀ p ∈ Kinds l,
      p.2 = kindWithRuntimeDeps ∨ p.2 = kindWithoutRuntimeDeps ∨ p.2 = javaLibraryKind := by
    unfold Kinds
    decide
  exact hall _ (lookup_mem _ _ _ h)

theorem lookup_isSome_iff {β : Type} (m : List (String × β)) (a : String) :
    (∃ v, List.lookup a m = some v) ↔ a ∈ m.map Prod.fst := by
  induction m with
  | nil => simp [List.lookup]
  | cons p m ih =>
    obtain ⟨k, w⟩ := p
    rw [lookup_cons_ite, List.map_cons, List.mem_cons]
    by_cases hk : a = k
    · simp [hk]
    · rw [if_neg hk, ih]
      simp [hk]

/-- The keys of the map literal of `Kinds()` are pairwise distinct, as Go
requires of a map literal. -/
theorem Kinds_keys_nodup {Ext : Type} (l : javaLang Ext) :
    ((Kinds l).map Prod.fst).Nodup := by
  unfold Kinds
  decide

/-- Java binaries and the eight enumerated test kinds are registered with the
shape `kindWithRuntimeDeps`. -/
theorem Kinds_binary_and_test_kinds {Ext : Type} (l : javaLang Ext) :
    ∀ kind ∈ "java_binary" :: test_kinds, (Kinds l).lookup kind = some kindWithRuntimeDeps := by
  unfold Kinds
  decide

/-! ## Test classifier -/

/-- C1 (defect in the code). `isTestRule` never reads `kind`: each element of
`test_kinds` is compared with the identifier `string`. Whatever that comparison
yields, `isTestRule` cannot accept the test kind `java_test` and reject the
non-test kind `java_binary`, as exact membership in the eight test kinds
requires. -/
theorem isTestRule_cannot_classify (eqString : String → Bool) :
    ¬ (isTestRule eqString "java_test" = true ∧ isTestRule eqString "java_binary" = false) := by
  rw [isTestRule_eq_any, isTestRule_eq_any]
  rintro ⟨h1, h2⟩
  rw [h1] at h2
  cases h2

/-- What `isTestRule` answers is decided by the comparison with `string` on
the elements of `test_kinds` alone: it accepts, whatever the kind, exactly when
that comparison succeeds on some element. -/
theorem isTestRule_accepts_iff (eqString : String → Bool) (kind : String) :
    isTestRule eqString kind = true ↔ ∃ t ∈ test_kinds, eqString t = true := by
  rw [isTestRule_eq_any, List.any_eq_true]

/-- Whether `isTestRule` rejects the kinds that `Kinds()` does not register is
not settled by the source: it does so exactly when the comparison with `string`
succeeds on no element of `test_kinds`. -/
theorem isTestRule_rejects_unregistered_iff {Ext : Type} (l : javaLang Ext)
    (eqString : String → Bool) :
    (∀ kind, (Kinds l).lookup kind = none → isTestRule eqString kind = false) ↔
      ∀ t ∈ test_kinds, eqString t = false := by
  constructor
  · intro h t ht
    have h0 := h "java_module" (by unfold Kinds; decide)
    cases hq : eqString t
    · rfl
    · rw [(isTestRule_accepts_iff eqString "java_module").2 ⟨t, ht, hq⟩] at h0
      cases h0
  · intro h kind _
    cases hq : isTestRule eqString kind
    · rfl
    · obtain ⟨t, ht, hs⟩ := (isTestRule_accepts_iff eqString kind).1 hq
      rw [h t ht] at hs
      cases hs

/-! ## Rule-kind table -/

/-- C3. The generated-code kinds `java_proto_library` and `java_grpc_library`
are registered, and the attributes marked in their `ResolveAttrs` are exactly
`deps`: neither `runtime_deps` nor `exports` is among them. -/
theorem generated_kinds_resolve_only_deps {Ext : Type} (l : javaLang Ext) :
    (∃ info, (Kinds l).lookup "java_proto_library" = some info ∧
      (∀ a, info.ResolveAttrs.get a = true ↔ a = "deps") ∧
      info.ResolveAttrs.get "runtime_deps" = false ∧
      info.ResolveAttrs.get "exports" = false) ∧
    (∃ info, (Kinds l).lookup "java_grpc_library" = some info ∧
      (∀ a, info.ResolveAttrs.get a = true ↔ a = "deps") ∧
      info.ResolveAttrs.get "runtime_deps" = false ∧
      info.ResolveAttrs.get "exports" = false) := by
  refine ⟨⟨kindWithoutRuntimeDeps, ?_, get_kindWithoutRuntimeDeps, ?_, ?_⟩,
    ⟨kindWithoutRuntimeDeps, ?_, get_kindWithoutRuntimeDeps, ?_, ?_⟩⟩ <;>
  first
    | (unfold Kinds; decide)
    | decide

/-- C5. The library kinds `java_library` and `library_package` are registered
with `ResolveAttrs` exactly `deps`, `runtime_deps`, `exports`, and they are the
only registered kinds whose `ResolveAttrs` contains `exports`. -/
theorem library_kinds_export {Ext : Type} (l : javaLang Ext) :
    (∃ info, (Kinds l).lookup "java_library" = some info ∧
      ∀ a, info.ResolveAttrs.get a = true ↔ a = "deps" ∨ a = "runtime_deps" ∨ a = "exports") ∧
    (∃ info, (Kinds l).lookup "library_package" = some info ∧
      ∀ a, info.ResolveAttrs.get a = true ↔ a = "deps" ∨ a = "runtime_deps" ∨ a = "exports") ∧
    ((Kinds l).filter (fun p => p.2.ResolveAttrs.get "exports")).map Prod.fst =
      ["java_library", "library_package"] := by
  refine ⟨⟨javaLibraryKind, ?_, get_javaLibraryKind⟩,
    ⟨javaLibraryKind, ?_, get_javaLibraryKind⟩, ?_⟩ <;>
  (unfold Kinds; decide)

/-- C6. For every kind registered in `Kinds()`, every attribute marked in its
`ResolveAttrs` is one of `deps`, `runtime_deps`, `exports`, and `deps` is
marked. -/
theorem resolveAttrs_invariant {Ext : Type} (l : javaLang Ext) (kind : String) (info : KindInfo)
    (h : (Kinds l).lookup kind = some info) :
    (∀ a, info.ResolveAttrs.get a = true → a = "deps" ∨ a = "runtime_deps" ∨ a = "exports") ∧
    info.ResolveAttrs.get "deps" = true := by
  rcases Kinds_shape l kind info h with rfl | rfl | rfl
  · refine ⟨fun a ha => ?_, by decide⟩
    rcases (get_kindWithRuntimeDeps a).1 ha with h1 | h1
    · exact Or.inl h1
    · exact Or.inr (Or.inl h1)
  · exact ⟨fun a ha => Or.inl ((get_kindWithoutRuntimeDeps a).1 ha), by decide⟩
  · exact ⟨fun a ha => (get_javaLibraryKind a).1 ha, by decide⟩

/-- The invariant of C6 at the registered kind `java_library`. -/
theorem resolveAttrs_invariant_witness :
    (Kinds sampleLang).lookup "java_library" = some javaLibraryKind ∧
    ((∀ a, javaLibraryKind.ResolveAttrs.get a = true →
        a = "deps" ∨ a = "runtime_deps" ∨ a = "exports") ∧
      javaLibraryKind.ResolveAttrs.get "deps" = true) :=
  ⟨by decide, resolveAttrs_invariant sampleLang "java_library" javaLibraryKind (by decide)⟩

/-! ## Load table -/

/-- C7. A string is a key of `Kinds()` exactly when it is a symbol of some
entry of `Loads()`. -/
theorem loads_cover_kinds {Ext : Type} (l : javaLang Ext) (s : String) :
    (∃ info, (Kinds l).lookup s = some info) ↔ ∃ e ∈ Loads l, s ∈ e.Symbols := by
  have h1 : ∀ x ∈ (Kinds l).map Prod.fst, x ∈ (Loads l).flatMap LoadInfo.Symbols := by
    unfold Kinds Loads
    decide
  have h2 : ∀ x ∈ (Loads l).flatMap LoadInfo.Symbols, x ∈ (Kinds l).map Prod.fst := by
    unfold Kinds Loads
    decide
  rw [lookup_isSome_iff]
  constructor
  · intro h
    exact List.mem_flatMap.1 (h1 s h)
  · intro h
    exact h2 s (List.mem_flatMap.2 h)

/-- C8, refuted as stated: the entries of `Loads()` are not sorted by `Name`
(`@rules_java` comes before `@contrib_rules_jvm`), and the symbols are not
sorted within every entry (`unit_test` comes before `unit_package`). -/
theorem loads_not_sorted :
    ¬ (sortedLex ((Loads sampleLang).map LoadInfo.Name)) ∧
    ¬ (∀ e ∈ Loads sampleLang, sortedLex e.Symbols) := by
  unfold Loads
  decide

/-- C8, amended. `Loads()` returns its entries in one fixed order, the order in
which `javaLoads` declares them, whatever the receiver; within the entries of
the three stock load files the symbols are sorted lexicographically. -/
theorem loads_fixed_order {E1 E2 : Type} (l1 : javaLang E1) (l2 : javaLang E2) :
    Loads l1 = Loads l2 ∧
    (Loads l1).map LoadInfo.Name =
      [ "@io_grpc_grpc_java//:java_grpc_library.bzl",
        "@rules_java//java:defs.bzl",
        "@contrib_rules_jvm//java:defs.bzl",
        "@10gen_mms//server/src/unit:rules.bzl",
        "@10gen_mms//server/src/test:rules.bzl" ] ∧
    ∀ e ∈ Loads l1, e.Name ∈ stockLoadNames → sortedLex e.Symbols := by
  refine ⟨rfl, rfl, ?_⟩
  unfold Loads
  decide

/-- The amended C8 at the entry of `@rules_java//java:defs.bzl`. -/
theorem loads_fixed_order_witness :
    ({ Name := "@rules_java//java:defs.bzl",
       Symbols := ["java_binary", "java_library", "java_proto_library", "java_test"] } : LoadInfo)
      ∈ Loads sampleLang ∧
    sortedLex ["java_binary", "java_library", "java_proto_library", "java_test"] :=
  ⟨by decide,
   (loads_fixed_order sampleLang sampleLang).2.2
     { Name := "@rules_java//java:defs.bzl",
       Symbols := ["java_binary", "java_library", "java_proto_library", "java_test"] }
     (by decide) (by decide)⟩

/-! ## Language state -/

/-- C9. Registration is static: any two language states get equal tables from
`Kinds()` and from `Loads()`, a repeated call returns the same table, and a
call leaves the language state, `javaPackageCache` included, as it was. -/
theorem registration_static {E1 E2 : Type} (l1 : javaLang E1) (l2 : javaLang E2) :
    Kinds l1 = Kinds l2 ∧ Loads l1 = Loads l2 ∧
    (callKinds (callKinds l1).2).1 = (callKinds l1).1 ∧
    (callLoads (callLoads l1).2).1 = (callLoads l1).1 ∧
    (callKinds l1).2 = l1 ∧ (callLoads l1).2 = l1 ∧
    (callKinds l1).2.javaPackageCache = l1.javaPackageCache ∧
    (callLoads l1).2.javaPackageCache = l1.javaPackageCache :=
  ⟨rfl, rfl, rfl, rfl, rfl, rfl, rfl, rfl⟩

/-- C10, refuted as stated: on the language that `NewLanguage` returns the
parser is nil, and the first call of `DoneGeneratingRules` already fails, so
the hook is not error-free on every language. -/
theorem doneGeneratingRules_fails_on_new_language :
    (NewLanguage () () "info" (fun _ => ()) (fun _ => ())).parser = none ∧
    DoneGeneratingRules (NewLanguage () () "info" (fun _ => ()) (fun _ => ())) =
      .error "invalid memory address or nil pointer dereference" ∧
    ¬ ∃ l1, DoneGeneratingRules (NewLanguage () () "info" (fun _ => ()) (fun _ => ())) =
      .ok l1 := by
  refine ⟨rfl, rfl, ?_⟩
  rintro ⟨l1, h⟩
  cases h

/-- C10, amended. On a language whose parser is set, `DoneGeneratingRules`
called twice produces no error either time; the second call leaves the state
as the first call left it and performs no release, and when the resources are
held the first call releases them once. -/
theorem doneGeneratingRules_twice {Ext : Type} (l : javaLang Ext) (r : Runner)
    (h : l.parser = some r) :
    ∃ l1, DoneGeneratingRules l = .ok l1 ∧ DoneGeneratingRules l1 = .ok l1 ∧
      releasesOf l1 = releasesOf l + (if r.ServerManager.held then 1 else 0) := by
  obtain ⟨c, rs, p, lg, lvl, mr, cache⟩ := l
  obtain ⟨⟨held, n⟩⟩ := r
  simp only at h
  subst h
  cases held <;>
    simp [DoneGeneratingRules, Runner.ServerManager, ServerManager.Shutdown, releasesOf]

/-- The amended C10 at a language whose parser collaborator holds its
resources. -/
theorem doneGeneratingRules_twice_witness :
    sampleLang.parser = some { mgr := { held := true, releases := 0 } } ∧
    ∃ l1, DoneGeneratingRules sampleLang = .ok l1 ∧ DoneGeneratingRules l1 = .ok l1 ∧
      releasesOf l1 = releasesOf sampleLang + 1 :=
  ⟨rfl, doneGeneratingRules_twice sampleLang { mgr := { held := true, releases := 0 } } rfl⟩

/-! ## Load table: one place per symbol -/

/-- C11. Across all entries of `Loads()` no symbol occurs twice, neither within
an entry nor in two entries; the entries have pairwise distinct `Name`s; and no
entry has an empty `Symbols` list. -/
theorem loads_symbols_unique {Ext : Type} (l : javaLang Ext) :
    ((Loads l).flatMap LoadInfo.Symbols).Nodup ∧
    ((Loads l).map LoadInfo.Name).Nodup ∧
    [] ∉ (Loads l).map LoadInfo.Symbols := by
  unfold Loads
  decide

/-! ## Rule-kind table: non-empty and mergeable attributes -/

theorem nonEmpty_kindWithRuntimeDeps (a : String) :
    kindWithRuntimeDeps.NonEmptyAttrs.get a = true ↔ a = "deps" ∨ a = "srcs" := by
  simp only [kindWithRuntimeDeps, AttrSet.get_cons, AttrSet.get_nil]
  by_cases h1 : a = "deps" <;> by_cases h2 : a = "srcs" <;> simp [h1, h2]

theorem nonEmpty_kindWithoutRuntimeDeps (a : String) :
    kindWithoutRuntimeDeps.NonEmptyAttrs.get a = true ↔ a = "deps" ∨ a = "srcs" := by
  simp only [kindWithoutRuntimeDeps, AttrSet.get_cons, AttrSet.get_nil]
  by_cases h1 : a = "deps" <;> by_cases h2 : a = "srcs" <;> simp [h1, h2]

theorem nonEmpty_javaLibraryKind (a : String) :
    javaLibraryKind.NonEmptyAttrs.get a = true ↔ a = "deps" ∨ a = "exports" ∨ a = "srcs" := by
  simp only [javaLibraryKind, AttrSet.get_cons, AttrSet.get_nil]
  by_cases h1 : a = "deps" <;> by_cases h2 : a = "exports" <;>
    by_cases h3 : a = "srcs" <;> simp [h1, h2, h3]

/-- Every shape of the table marks exactly `srcs` as mergeable. -/
theorem mergeable_of_shape (info : KindInfo)
    (h : info = kindWithRuntimeDeps ∨ info = kindWithoutRuntimeDeps ∨ info = javaLibraryKind)
    (a : String) : info.MergeableAttrs.get a = true ↔ a = "srcs" := by
  have hm : info.MergeableAttrs = [("srcs", true)] := by
    rcases h with rfl | rfl | rfl <;> rfl
  rw [hm]
  simp only [AttrSet.get_cons, AttrSet.get_nil]
  by_cases h1 : a = "srcs" <;> simp [h1]

/-- C12. For every kind registered in `Kinds()`, the attributes marked in
`NonEmptyAttrs` are `srcs` and the attributes of `ResolveAttrs` other than
`runtime_deps`; so `exports` is in `NonEmptyAttrs` exactly when it is in
`ResolveAttrs`, and `runtime_deps` is never in `NonEmptyAttrs`. -/
theorem nonEmptyAttrs_from_resolveAttrs {Ext : Type} (l : javaLang Ext) (kind : String)
    (info : KindInfo) (h : (Kinds l).lookup kind = some info) :
    (∀ a, info.NonEmptyAttrs.get a = true ↔
      a = "srcs" ∨ (info.ResolveAttrs.get a = true ∧ a ≠ "runtime_deps")) ∧
    (info.NonEmptyAttrs.get "exports" = true ↔ info.ResolveAttrs.get "exports" = true) ∧
    info.NonEmptyAttrs.get "runtime_deps" = false := by
  rcases Kinds_shape l kind info h with rfl | rfl | rfl
  · refine ⟨fun a => ?_, by decide, by decide⟩
    rw [nonEmpty_kindWithRuntimeDeps, get_kindWithRuntimeDeps]
    constructor
    · rintro (rfl | rfl)
      · exact Or.inr ⟨Or.inl rfl, by decide⟩
      · exact Or.inl rfl
    · rintro (rfl | ⟨h1 | h1, h2⟩)
      · exact Or.inr rfl
      · exact Or.inl h1
      · exact absurd h1 h2
  · refine ⟨fun a => ?_, by decide, by decide⟩
    rw [nonEmpty_kindWithoutRuntimeDeps, get_kindWithoutRuntimeDeps]
    constructor
    · rintro (rfl | rfl)
      · exact Or.inr ⟨rfl, by decide⟩
      · exact Or.inl rfl
    · rintro (rfl | ⟨h1, _⟩)
      · exact Or.inr rfl
      · exact Or.inl h1
  · refine ⟨fun a => ?_, by decide, by decide⟩
    rw [nonEmpty_javaLibraryKind, get_javaLibraryKind]
    constructor
    · rintro (rfl | rfl | rfl)
      · exact Or.inr ⟨Or.inl rfl, by decide⟩
      · exact Or.inr ⟨Or.inr (Or.inr rfl), by decide⟩
      · exact Or.inl rfl
    · rintro (rfl | ⟨h1 | h1 | h1, h2⟩)
      · exact Or.inr (Or.inr rfl)
      · exact Or.inl h1
      · exact absurd h1 h2
      · exact Or.inr (Or.inl h1)

/-- C12 at the registered kind `library_package`. -/
theorem nonEmptyAttrs_from_resolveAttrs_witness :
    (Kinds sampleLang).lookup "library_package" = some javaLibraryKind ∧
    ((∀ a, javaLibraryKind.NonEmptyAttrs.get a = true ↔
        a = "srcs" ∨ (javaLibraryKind.ResolveAttrs.get a = true ∧ a ≠ "runtime_deps")) ∧
      (javaLibraryKind.NonEmptyAttrs.get "exports" = true ↔
        javaLibraryKind.ResolveAttrs.get "exports" = true) ∧
      javaLibraryKind.NonEmptyAttrs.get "runtime_deps" = false) :=
  ⟨by decide,
   nonEmptyAttrs_from_resolveAttrs sampleLang "library_package" javaLibraryKind (by decide)⟩

/-- C13. For every kind registered in `Kinds()`, the attributes marked in
`MergeableAttrs` are exactly `srcs`; no attribute is marked both in
`MergeableAttrs` and in `ResolveAttrs`, and none of `deps`, `runtime_deps`,
`exports` is mergeable. -/
theorem mergeableAttrs_only_srcs {Ext : Type} (l : javaLang Ext) (kind : String)
    (info : KindInfo) (h : (Kinds l).lookup kind = some info) :
    (∀ a, info.MergeableAttrs.get a = true ↔ a = "srcs") ∧
    (∀ a, ¬ (info.MergeableAttrs.get a = true ∧ info.ResolveAttrs.get a = true)) ∧
    info.MergeableAttrs.get "deps" = false ∧
    info.MergeableAttrs.get "runtime_deps" = false ∧
    info.MergeableAttrs.get "exports" = false := by
  have hs := Kinds_shape l kind info h
  have hm := mergeable_of_shape info hs
  have hsrcs : info.ResolveAttrs.get "srcs" = false := by
    rcases hs with rfl | rfl | rfl <;> decide
  have hno : ∀ a, a ≠ "srcs" → info.MergeableAttrs.get a = false := by
    intro a ha
    cases hg : info.MergeableAttrs.get a
    · rfl
    · exact absurd ((hm a).1 hg) ha
  refine ⟨hm, ?_, hno _ (by decide), hno _ (by decide), hno _ (by decide)⟩
  rintro a ⟨h1, h2⟩
  have ha := (hm a).1 h1
  subst ha
  rw [hsrcs] at h2
  cases h2

/-- C13 at the registered kind `java_test`. -/
theorem mergeableAttrs_only_srcs_witness :
    (Kinds sampleLang).lookup "java_test" = some kindWithRuntimeDeps ∧
    ((∀ a, kindWithRuntimeDeps.MergeableAttrs.get a = true ↔ a = "srcs") ∧
      (∀ a, ¬ (kindWithRuntimeDeps.MergeableAttrs.get a = true ∧
        kindWithRuntimeDeps.ResolveAttrs.get a = true)) ∧
      kindWithRuntimeDeps.MergeableAttrs.get "deps" = false ∧
      kindWithRuntimeDeps.MergeableAttrs.get "runtime_deps" = false ∧
      kindWithRuntimeDeps.MergeableAttrs.get "exports" = false) :=
  ⟨by decide, mergeableAttrs_only_srcs sampleLang "java_test" kindWithRuntimeDeps (by decide)⟩

end Gazelle
